import Mathlib

set_option linter.unusedVariables false

/-!
Shallow embedding of `src/server.js` of the Dispute-ai-backend repository.

The server is a thin Express app wiring Stripe webhooks, an in-memory
dispute store, an OpenAI completion call and a dispute-evidence submission
endpoint.  We embed the handlers as pure functions: every external call
(Stripe retrieval, the OpenAI fetch, the Stripe update) is replaced by an
explicit outcome parameter, and the in-memory `Map` becomes an association
list with JavaScript `Map.set` semantics.  JavaScript runtime values that
the code manipulates dynamically (fields of the dispute object, the parsed
completion response) are embedded as the inductive `JsVal`; exceptions
(`TypeError` on calling a method of a non-object, `RangeError` from
`Date.prototype.toISOString` on an invalid date, a rejected `fetch`)
become `Except JsErr`.
-/

/-- JavaScript numbers, restricted to the values the embedded code paths
produce: `NaN` (from coercing `undefined` or non-numeric strings) and
integers (Stripe amounts and Unix timestamps).  No claim depends on
non-integral or infinite numbers. -/
inductive JsNum where
  | nan
  | int (n : Int)
deriving DecidableEq

/-- JavaScript/JSON values as manipulated dynamically by `server.js`. -/
inductive JsVal where
  | undefined
  | null
  | bool (b : Bool)
  | num (n : JsNum)
  | str (s : String)
  | arr (xs : List JsVal)
  | obj (fields : List (String × JsVal))

/-- Runtime exceptions of the embedded code paths. -/
inductive JsErr where
  /-- calling a method (`toUpperCase`, `slice`) or reading a property of a
  value that does not support it -/
  | typeError
  /-- `Date.prototype.toISOString` on an invalid date -/
  | rangeError
  /-- a rejected `fetch` (network failure) or a body that is not JSON -/
  | fetchFailed
deriving DecidableEq

/-- JavaScript truthiness: `undefined`, `null`, `false`, `0`, `NaN` and the
empty string are falsy; everything else (including empty arrays and
objects) is truthy. -/
def truthyB : JsVal → Bool
  | .undefined => false
  | .null => false
  | .bool b => b
  | .num .nan => false
  | .num (.int n) => n != 0
  | .str s => s != ""
  | .arr _ => true
  | .obj _ => true

mutual

/-- JavaScript `ToString`, as used by template-literal interpolation
(`${...}`).  Arrays stringify as their elements joined by commas with
`null`/`undefined` elements rendered empty; plain objects stringify as
`[object Object]`. -/
def jsToString : JsVal → String
  | .undefined => "undefined"
  | .null => "null"
  | .bool true => "true"
  | .bool false => "false"
  | .num .nan => "NaN"
  | .num (.int n) => toString n
  | .str s => s
  | .arr xs => jsArrElems xs
  | .obj _ => "[object Object]"

/-- Elements of an array joined by commas (the `Array.prototype.toString`
part of `jsToString`). -/
def jsArrElems : List JsVal → String
  | [] => ""
  | x :: xs =>
    (match x with
     | .undefined => ""
     | .null => ""
     | v => jsToString v) ++
    (match xs with
     | [] => ""
     | _ => "," ++ jsArrElems xs)

end

/-- JavaScript `ToNumber`, on the value shapes the embedded code exercises.
Strings of decimal digits convert to their value and the empty string to
`0`; other strings, arrays and objects are approximated as `NaN` (the code
under verification only ever hits this coercion with integers, digit
strings or `undefined`). -/
def jsToNumber : JsVal → JsNum
  | .undefined => .nan
  | .null => .int 0
  | .bool true => .int 1
  | .bool false => .int 0
  | .num n => n
  | .str s =>
    if s = "" then .int 0
    else match s.toNat? with
      | some n => .int n
      | none => .nan
  | .arr _ => .nan
  | .obj _ => .nan

/-- Multiplication by `1000`, as in `dispute.created * 1000`. -/
def jsMul1000 : JsNum → JsNum
  | .nan => .nan
  | .int n => .int (n * 1000)

/-- `String.prototype.slice(0, n)` (code-unit truncation; the embedded
strings are one code unit per character). -/
def jsSlice (s : String) (n : Nat) : String := ⟨s.data.take n⟩

/-- Left-pad the decimal rendering of `n` with zeros to `width` digits. -/
def padNat (width : Nat) (n : Nat) : String :=
  let s := toString n
  ⟨List.replicate (width - s.data.length) '0'⟩ ++ s

/-- Civil date from a day count relative to 1970-01-01 (proleptic
Gregorian calendar): `(year, month, day)`. -/
def civilFromDays (z0 : Int) : Int × Nat × Nat :=
  let z := z0 + 719468
  let era : Int := z.ediv 146097
  let doe : Nat := (z.emod 146097).toNat
  let yoe : Nat := (doe - doe / 1460 + doe / 36524 - doe / 146096) / 365
  let y : Int := (yoe : Int) + era * 400
  let doy : Nat := doe - (365 * yoe + yoe / 4 - yoe / 100)
  let mp : Nat := (5 * doy + 2) / 153
  let d : Nat := doy - (153 * mp + 2) / 5 + 1
  let m : Nat := if mp < 10 then mp + 3 else mp - 9
  (if m ≤ 2 then y + 1 else y, m, d)

/-- Render a year as in ECMAScript date-time strings: four padded digits
for years `0`–`9999`, otherwise a sign followed by six padded digits. -/
def isoYear (y : Int) : String :=
  if 0 ≤ y ∧ y ≤ 9999 then padNat 4 y.toNat
  else if y < 0 then "-" ++ padNat 6 (-y).toNat
  else "+" ++ padNat 6 y.toNat

/-- ISO-8601 rendering of a millisecond Unix timestamp, as produced by
`Date.prototype.toISOString` on a valid date. -/
def isoOfMillis (ms : Int) : String :=
  let days : Int := ms.ediv 86400000
  let msOfDay : Nat := (ms.emod 86400000).toNat
  let ymd := civilFromDays days
  isoYear ymd.1 ++ "-" ++ padNat 2 ymd.2.1 ++ "-" ++ padNat 2 ymd.2.2 ++
    "T" ++ padNat 2 (msOfDay / 3600000) ++ ":" ++
    padNat 2 (msOfDay % 3600000 / 60000) ++ ":" ++
    padNat 2 (msOfDay % 60000 / 1000) ++ "." ++ padNat 3 (msOfDay % 1000) ++ "Z"

/-- `new Date(t).toISOString()`: raises `RangeError` ("Invalid time value")
when `t` is `NaN` or outside the representable range of ECMAScript dates
(±8.64e15 ms). -/
def jsDateToIso (t : JsNum) : Except JsErr String :=
  match t with
  | .nan => .error .rangeError
  | .int ms =>
    if ms.natAbs > 8640000000000000 then .error .rangeError
    else .ok (isoOfMillis ms)

/-- `x?.toUpperCase()`: `undefined` for `null`/`undefined` receivers,
uppercasing for strings, and a `TypeError` for any other receiver (numbers,
booleans, arrays and objects have no `toUpperCase` method). -/
def jsUpperOrUndef : JsVal → Except JsErr JsVal
  | .undefined => .ok .undefined
  | .null => .ok .undefined
  | .str s => .ok (.str s.toUpper)
  | _ => .error .typeError

/-- `x?.p`: optional-chained property read.  `null`/`undefined` receivers
short-circuit to `undefined`; objects look the property up; primitives
yield `undefined` (no own properties of these names). -/
def optChainProp (v : JsVal) (p : String) : JsVal :=
  match v with
  | .undefined => .undefined
  | .null => .undefined
  | .obj fields => (fields.lookup p).getD .undefined
  | _ => .undefined

/-- `x.p`: unguarded property read; raises `TypeError` on `null` or
`undefined` receivers. -/
def jsGetProp (v : JsVal) (p : String) : Except JsErr JsVal :=
  match v with
  | .undefined => .error .typeError
  | .null => .error .typeError
  | .obj fields => .ok ((fields.lookup p).getD .undefined)
  | _ => .ok .undefined

/-- `x?.[0]`: optional-chained index read.  Arrays yield their head,
strings their first character, other primitives `undefined`
(`null`/`undefined` receivers are short-circuited by the caller). -/
def jsIndexZero (v : JsVal) : JsVal :=
  match v with
  | .arr (x :: _) => x
  | .str s =>
    match s.data with
    | c :: _ => .str ⟨[c]⟩
    | [] => .undefined
  | _ => .undefined

/-- The optional-chained tail `?.[0]?.message?.content` applied to the
value of `choices`: total (each step short-circuits to `undefined` once a
`null`/`undefined` is met, and the guarded reads never throw). -/
def chainTail (c : JsVal) : JsVal :=
  match c with
  | .undefined => .undefined
  | .null => .undefined
  | _ =>
    let e := jsIndexZero c
    match e with
    | .undefined => .undefined
    | .null => .undefined
    | _ =>
      let m := optChainProp e "message"
      match m with
      | .undefined => .undefined
      | .null => .undefined
      | _ => optChainProp m "content"

/-- `json.choices?.[0]?.message?.content`: the first property read is
unguarded (a `null` response JSON raises `TypeError`); the rest of the
chain is the total `chainTail`. -/
def chainExtract (j : JsVal) : Except JsErr JsVal := do
  let c ← jsGetProp j "choices"
  pure (chainTail c)

/-- `(dispute.amount / 100).toFixed(2)`: `NaN` renders as the string
`NaN`; an integral amount in minor units renders exactly with two fraction
digits. -/
def amountFixed2 (amount : JsVal) : String :=
  match jsToNumber amount with
  | .nan => "NaN"
  | .int n =>
    (if n < 0 then "-" else "") ++
      toString (n.natAbs / 100) ++ "." ++ padNat 2 (n.natAbs % 100)

/-- The dispute object as read by `server.js`: the properties the code
dereferences, each an arbitrary runtime value (`.undefined` models an absent
property). -/
structure DisputeDoc where
  id : JsVal
  reason : JsVal
  amount : JsVal
  currency : JsVal
  created : JsVal
  charge : JsVal
  evidence_details : JsVal
  status : JsVal

/-- Outcome of the single `fetch` to the completion endpoint: either the
promise chain rejects (network failure or non-JSON body) or it yields a
parsed JSON value. -/
inductive FetchOutcome where
  | networkError
  | jsonResp (j : JsVal)

/-- The fallback draft returned when `OPENAI_API_KEY` is unset. -/
def fallbackText (d : DisputeDoc) : String :=
  "Dispute " ++ jsToString d.id ++
    ": Provide clear proof of service/delivery, customer communication, refund policy, and terms.\n(OPENAI_API_KEY missing; returning fallback text.)"

/-- The constant system message of the completion request (recorded for
fidelity; it does not influence control flow). -/
def systemContent : String :=
  "You are a professional chargeback analyst. Draft a persuasive, structured dispute response. Use clear headings and cite attached evidence placeholders. Keep to ~250-350 words. Do not invent facts."

/-- The lines of the user message of the completion request, evaluated in
source order: the currency method call (line 2), the created-date
rendering (line 3) and the due-date rendering (line 5) can each raise. -/
def userLines (d : DisputeDoc) : Except JsErr (List String) := do
  let cur ← jsUpperOrUndef d.currency
  let createdIso ← jsDateToIso (jsMul1000 (jsToNumber d.created))
  let dueByVal := optChainProp d.evidence_details "due_by"
  let dueStr ←
    if truthyB dueByVal then jsDateToIso (jsMul1000 (jsToNumber dueByVal))
    else pure "unknown"
  pure [
    "Dispute ID: " ++ jsToString d.id,
    "Reason: " ++ jsToString d.reason,
    "Amount: " ++ amountFixed2 d.amount ++ " " ++ jsToString cur,
    "Created: " ++ createdIso,
    "Charge: " ++ jsToString d.charge,
    "Evidence due by: " ++ dueStr,
    "",
    "Evidence available:",
    "- Order details: <attach order receipt / invoice>",
    "- Delivery/usage logs: <attach carrier delivery / tracking, access logs>",
    "- Customer comms: <attach email/chat transcripts>",
    "- Policies: <attach refund/terms/exclusions>",
    "",
    "Goal: Write a structured response addressing the cardholder's claim, referencing policy and proof, and requesting dispute reversal."
  ]

/-- The user message: the lines joined by newlines (`[...].join("\n")`). -/
def userContent (d : DisputeDoc) : Except JsErr String :=
  (userLines d).map (String.intercalate "\n")

/-- `generateAIDraft(dispute)`.  Without `OPENAI_API_KEY` it returns the
fallback string and performs no fetch.  With a key it first constructs the
request body (whose user message can raise), then performs the single
fetch; a rejected fetch propagates, a JSON response goes through
`json.choices?.[0]?.message?.content || "Draft unavailable."`.  The second
component counts fetch calls performed. -/
def generateAIDraft (apiKey : Option String) (dispute : DisputeDoc)
    (fo : FetchOutcome) : Except JsErr JsVal × Nat :=
  match apiKey with
  | none => (.ok (.str (fallbackText dispute)), 0)
  | some _ =>
    match userContent dispute with
    | .error e => (.error e, 0)
    | .ok _msg =>
      match fo with
      | .networkError => (.error .fetchFailed, 1)
      | .jsonResp j =>
        match chainExtract j with
        | .error e => (.error e, 1)
        | .ok c =>
          (.ok (if truthyB c then c else .str "Draft unavailable."), 1)

/-- A Stripe webhook event, as consumed by the handler: `event.type`,
`event.data.object.id` (Stripe ids are strings) and `event.account`,
which is present exactly on Connect events (`none` models an absent
property). -/
structure StripeEvent where
  type : String
  objId : String
  account : Option String

/-- `event.account || null`: a missing or empty (falsy) account collapses
to `null`. -/
def normAccount : Option String → Option String
  | none => none
  | some s => if s = "" then none else some s

/-- One inbound webhook POST, with the outcomes of the external calls the
handler would make: the result of `stripe.webhooks.constructEvent` (the
error's `message` on verification failure), the result of
`stripe.disputes.retrieve`, and the completion fetch outcome. -/
structure WebhookInput where
  verif : Except String StripeEvent
  retrieveOutcome : Except String DisputeDoc
  fetchOutcome : FetchOutcome

/-- A stored value of the `disputes` map: `{ data, draft, account_id }`. -/
structure CaseRec where
  data : DisputeDoc
  draft : JsVal
  account_id : String

/-- The `disputes` map, an association list with JavaScript `Map`
semantics (`set` overwrites in place, insertion order preserved). -/
abbrev CaseStore := List (String × CaseRec)

/-- `Map.prototype.set`: overwrite the first binding of the key in place,
or append a new binding. -/
def mapSet (store : CaseStore) (k : String) (v : CaseRec) : CaseStore :=
  match store with
  | [] => [(k, v)]
  | (k0, v0) :: rest =>
    if k0 = k then (k, v) :: rest else (k0, v0) :: mapSet rest k v

/-- `Map.prototype.get`. -/
def mapGet (store : CaseStore) (k : String) : Option CaseRec :=
  store.lookup k

/-- `Map.prototype.has`. -/
def hasKey (store : CaseStore) (k : String) : Bool :=
  (mapGet store k).isSome

/-- Number of bindings of key `k` in the store. -/
def countKey (store : CaseStore) (k : String) : Nat :=
  (store.filter (fun p => p.1 == k)).length

/-- Response bodies of the webhook endpoint. -/
inductive RespBody where
  /-- `res.json({received: true})` -/
  | receivedTrue
  /-- `res.status(...).send(s)` -/
  | text (s : String)
deriving DecidableEq

/-- Result of one webhook POST: HTTP status, body, the store afterwards,
the `stripe.disputes.retrieve` calls made (dispute id and the
`stripeAccount` scoping parameter, `none` for a platform-level call), and
the number of completion-endpoint fetches. -/
structure WebhookResult where
  status : Nat
  body : RespBody
  store : CaseStore
  retrieveCalls : List (String × Option String)
  fetchCalls : Nat

/-- The `POST /webhooks/stripe` handler.  Signature failure returns `400`
with the error's message before anything else happens.  A verified
`charge.dispute.created` event retrieves the full dispute (scoped to
`event.account` when truthy), generates the draft and upserts the store;
any error in that path is caught and answered with `500 Internal error`.
`charge.dispute.closed` and unrecognized events only log and acknowledge
with `{received: true}`. -/
def handleWebhook (apiKey : Option String) (inp : WebhookInput)
    (store : CaseStore) : WebhookResult :=
  match inp.verif with
  | .error msg =>
    ⟨400, .text ("Webhook Error: " ++ msg), store, [], 0⟩
  | .ok ev =>
    let accountId := normAccount ev.account
    if ev.type = "charge.dispute.created" then
      match inp.retrieveOutcome with
      | .error _ => ⟨500, .text "Internal error", store, [(ev.objId, accountId)], 0⟩
      | .ok full =>
        match generateAIDraft apiKey full inp.fetchOutcome with
        | (.error _, n) =>
          ⟨500, .text "Internal error", store, [(ev.objId, accountId)], n⟩
        | (.ok draft, n) =>
          ⟨200, .receivedTrue,
            mapSet store ev.objId ⟨full, draft, accountId.getD "platform"⟩,
            [(ev.objId, accountId)], n⟩
    else
      ⟨200, .receivedTrue, store, [], 0⟩

/-- The store after a sequence of webhook POSTs, starting from the empty
map the process boots with. -/
def processTrace (apiKey : Option String) (trace : List WebhookInput) : CaseStore :=
  trace.foldl (fun st inp => (handleWebhook apiKey inp st).store) []

/-- An input is a successfully processed creation event for dispute `x`:
it verifies, its type is `charge.dispute.created`, its object id is `x`,
the retrieval succeeds and the draft generation returns (independent of
the store at the time). -/
def successfulCreationB (apiKey : Option String) (inp : WebhookInput)
    (x : String) : Bool :=
  match inp.verif with
  | .error _ => false
  | .ok ev =>
    ev.type == "charge.dispute.created" && ev.objId == x &&
      (match inp.retrieveOutcome with
       | .error _ => false
       | .ok full =>
         match generateAIDraft apiKey full inp.fetchOutcome with
         | (.ok _, _) => true
         | (.error _, _) => false)

/-- One summary row of `GET /disputes`. -/
structure SummaryItem where
  id : String
  account_id : String
  status : JsVal
  amount : JsVal
  currency : JsVal
  reason : JsVal
  created : JsVal
  draft : String

/-- `x?.slice(0, n)`: strings slice by code units and arrays by elements
(`Array.prototype.slice`); `null`/`undefined` receivers short-circuit to
`undefined`; other receivers have no `slice` method and raise
`TypeError`. -/
def jsSliceVal (v : JsVal) (n : Nat) : Except JsErr JsVal :=
  match v with
  | .undefined => .ok .undefined
  | .null => .ok .undefined
  | .str s => .ok (.str (jsSlice s n))
  | .arr xs => .ok (.arr (xs.take n))
  | _ => .error .typeError

/-- `x.length > n` as evaluated on a truthy `x`: character count for
strings, element count for arrays; other values have no `length`
property and `undefined > n` is false. -/
def jsLengthGtB (v : JsVal) (n : Nat) : Bool :=
  match v with
  | .str s => decide (n < s.length)
  | .arr xs => decide (n < xs.length)
  | _ => false

/-- The draft preview of a listing row:
`obj.draft?.slice(0, 400) + (obj.draft && obj.draft.length > 400 ? "..." : "")`.
A `null`/`undefined` draft renders as the string `undefined` (string
concatenation with `undefined`); strings and arrays slice, and a sliced
array stringifies through the concatenation; other drafts have no
`slice` method and raise `TypeError`. -/
def draftPreview (draft : JsVal) : Except JsErr String := do
  let sliced ← jsSliceVal draft 400
  pure (jsToString sliced ++
    (if truthyB draft && jsLengthGtB draft 400 then "..." else ""))

/-- The `GET /disputes` handler: each stored entry projected to a summary
row, in store order; a raising projection aborts the response. -/
def listDisputes : CaseStore → Except JsErr (List SummaryItem)
  | [] => .ok []
  | (id, rec) :: rest => do
    let p ← draftPreview rec.draft
    let out ← listDisputes rest
    .ok (⟨id, rec.account_id, rec.data.status, rec.data.amount,
      rec.data.currency, rec.data.reason, rec.data.created, p⟩ :: out)

/-- The evidence value of a submission:
`rec.draft?.slice(0, 8000) || "See attached evidence."`.  A falsy slice
(the empty string, or the `undefined` of a `null`/`undefined` draft)
falls back to the placeholder; a sliced array is always truthy and is
passed through as the payload value; drafts without a `slice` method
raise `TypeError`. -/
def evidenceText (draft : JsVal) : Except JsErr JsVal := do
  let sliced ← jsSliceVal draft 8000
  pure (if truthyB sliced then sliced else .str "See attached evidence.")

/-- The `stripeAccount` scoping of the submission update:
`rec.account_id && rec.account_id !== "platform" ? { stripeAccount: rec.account_id } : {}`. -/
def updateScope (accountId : String) : Option String :=
  if accountId ≠ "" ∧ accountId ≠ "platform" then some accountId else none

/-- Result of `POST /disputes/:id/submit`: HTTP status and the
`stripe.disputes.update` calls made (dispute id, the `uncategorized_text`
evidence value, `stripeAccount` scoping). -/
structure SubmitResult where
  status : Nat
  updateCalls : List (String × JsVal × Option String)

/-- The `POST /disputes/:id/submit` handler.  Unknown id: `404` and no
provider call.  Otherwise the evidence payload is built from the stored
draft (this can raise, caught as `500`), then the update call is made;
`updOutcome` is its outcome (`500` with detail on provider error, `200`
on success). -/
def handleSubmit (store : CaseStore) (id : String)
    (updOutcome : Except String JsVal) : SubmitResult :=
  match mapGet store id with
  | none => ⟨404, []⟩
  | some rec =>
    match evidenceText rec.draft with
    | .error _ => ⟨500, []⟩
    | .ok txt =>
      match updOutcome with
      | .ok _ => ⟨200, [(id, txt, updateScope rec.account_id)]⟩
      | .error _ => ⟨500, [(id, txt, updateScope rec.account_id)]⟩

/-! Helper lemmas about strings, the store and the handlers. -/

theorem str_ne_empty_of_data (s : String) (h : s.data ≠ []) : s ≠ "" := by
  intro he
  exact h (by rw [he])

theorem jsSlice_length (s : String) (n : Nat) :
    (jsSlice s n).length = min n s.length := by
  cases s with
  | mk d => simp [jsSlice, String.length]

theorem jsSlice_of_le (s : String) (n : Nat) (h : s.length ≤ n) :
    jsSlice s n = s := by
  cases s with
  | mk d =>
    have hd : d.length ≤ n := h
    simp [jsSlice, List.take_of_length_le hd]

theorem jsSlice_ne_empty (s : String) (n : Nat) (hs : s ≠ "") (hn : 0 < n) :
    jsSlice s n ≠ "" := by
  apply str_ne_empty_of_data
  cases s with
  | mk d =>
    cases d with
    | nil => exact absurd rfl hs
    | cons c cs =>
      cases n with
      | zero => exact absurd hn (by simp)
      | succ m => simp [jsSlice]

theorem fallbackText_ne_empty (d : DisputeDoc) : fallbackText d ≠ "" := by
  apply str_ne_empty_of_data
  intro h
  have hlen := congrArg List.length h
  simp [fallbackText, String.data_append] at hlen

theorem truthyB_str_iff (s : String) : truthyB (.str s) = true ↔ s ≠ "" := by
  simp [truthyB]

theorem generateAIDraft_ok_truthy (apiKey : Option String) (d : DisputeDoc)
    (fo : FetchOutcome) (v : JsVal)
    (h : (generateAIDraft apiKey d fo).1 = .ok v) : truthyB v = true := by
  unfold generateAIDraft at h
  cases apiKey with
  | none =>
    simp at h
    rw [← h, truthyB_str_iff]
    exact fallbackText_ne_empty d
  | some k =>
    cases huc : userContent d with
    | error e => simp [huc] at h
    | ok msg =>
      cases fo with
      | networkError => simp [huc] at h
      | jsonResp j =>
        cases hce : chainExtract j with
        | error e => simp [huc, hce] at h
        | ok c =>
          simp [huc, hce] at h
          by_cases hc : truthyB c = true
          · rw [if_pos hc] at h; rw [← h]; exact hc
          · rw [if_neg hc] at h; rw [← h]; decide

theorem strBeqTrue {a b : String} (h : a = b) : (a == b) = true := by
  simp [h]

theorem strBeqFalse {a b : String} (h : a ≠ b) : (a == b) = false := by
  simp [h]

theorem mapGet_cons (k0 : String) (v0 : CaseRec) (rest : CaseStore)
    (x : String) :
    mapGet ((k0, v0) :: rest) x = if x = k0 then some v0 else mapGet rest x := by
  by_cases hx : x = k0
  · simp [mapGet, List.lookup, strBeqTrue hx, hx]
  · simp [mapGet, List.lookup, strBeqFalse hx, hx]

theorem mapGet_mapSet (store : CaseStore) (k : String) (v : CaseRec)
    (x : String) :
    mapGet (mapSet store k v) x = if x = k then some v else mapGet store x := by
  induction store with
  | nil =>
    show mapGet [(k, v)] x = _
    rw [mapGet_cons]
  | cons p rest ih =>
    obtain ⟨k0, v0⟩ := p
    by_cases h0 : k0 = k
    · subst h0
      simp only [mapSet, eq_self_iff_true, if_true]
      rw [mapGet_cons, mapGet_cons]
      by_cases hx : x = k0 <;> simp [hx]
    · simp only [mapSet, if_neg h0]
      rw [mapGet_cons, mapGet_cons, ih]
      by_cases hx : x = k0 <;> by_cases hxk : x = k <;> simp_all

theorem hasKey_mapSet (store : CaseStore) (k : String) (v : CaseRec)
    (x : String) :
    hasKey (mapSet store k v) x = ((x == k) || hasKey store x) := by
  rw [hasKey, mapGet_mapSet]
  by_cases hx : x = k <;> simp [hx, hasKey]

theorem mem_mapSet (store : CaseStore) (k : String) (v : CaseRec)
    (p : String × CaseRec) (h : p ∈ mapSet store k v) :
    p = (k, v) ∨ p ∈ store := by
  induction store with
  | nil => simpa [mapSet] using h
  | cons q rest ih =>
    obtain ⟨k0, v0⟩ := q
    by_cases h0 : k0 = k
    · subst h0
      simp only [mapSet, eq_self_iff_true, if_true] at h
      rcases List.mem_cons.mp h with h1 | h1
      · exact Or.inl h1
      · exact Or.inr (List.mem_cons_of_mem _ h1)
    · simp only [mapSet, if_neg h0] at h
      rcases List.mem_cons.mp h with h1 | h1
      · exact Or.inr (h1 ▸ List.mem_cons_self _ _)
      · rcases ih h1 with h2 | h2
        · exact Or.inl h2
        · exact Or.inr (List.mem_cons_of_mem _ h2)

theorem mem_of_mapGet (store : CaseStore) (k : String) (v : CaseRec)
    (h : mapGet store k = some v) : (k, v) ∈ store := by
  induction store with
  | nil => simp [mapGet, List.lookup] at h
  | cons p rest ih =>
    obtain ⟨k0, v0⟩ := p
    rw [mapGet_cons] at h
    by_cases hk : k = k0
    · subst hk
      rw [if_pos rfl] at h
      cases h
      exact List.mem_cons_self _ _
    · rw [if_neg hk] at h
      exact List.mem_cons_of_mem _ (ih h)

/-- Keys of the store are pairwise distinct (true of every reachable
store; the underlying JavaScript `Map` guarantees it). -/
def keysNodup (store : CaseStore) : Prop := (store.map Prod.fst).Nodup

theorem countKey_cons (k0 : String) (v0 : CaseRec) (rest : CaseStore)
    (x : String) :
    countKey ((k0, v0) :: rest) x =
      (if k0 = x then 1 else 0) + countKey rest x := by
  by_cases h : k0 = x
  · simp only [countKey, List.filter, strBeqTrue h, if_pos h, List.length_cons]
    omega
  · simp only [countKey, List.filter, strBeqFalse h, if_neg h]
    omega

theorem countKey_eq_zero_of_not_mem (store : CaseStore) (k : String)
    (h : k ∉ store.map Prod.fst) : countKey store k = 0 := by
  induction store with
  | nil => rfl
  | cons p rest ih =>
    obtain ⟨k0, v0⟩ := p
    simp only [List.map_cons, List.mem_cons] at h
    push_neg at h
    rw [countKey_cons, if_neg (fun he => h.1 he.symm)]
    simpa using ih h.2

theorem countKey_mapSet_self (store : CaseStore) (k : String) (v : CaseRec)
    (h : keysNodup store) : countKey (mapSet store k v) k = 1 := by
  induction store with
  | nil =>
    show countKey [(k, v)] k = 1
    rw [countKey_cons, if_pos rfl]
    rfl
  | cons p rest ih =>
    obtain ⟨k0, v0⟩ := p
    rw [keysNodup, List.map_cons, List.nodup_cons] at h
    by_cases h0 : k0 = k
    · subst h0
      simp only [mapSet, eq_self_iff_true, if_true]
      rw [countKey_cons, if_pos rfl, countKey_eq_zero_of_not_mem rest k0 h.1]
    · simp only [mapSet, if_neg h0]
      rw [countKey_cons, if_neg h0]
      simpa using ih h.2

theorem keysNodup_mapSet (store : CaseStore) (k : String) (v : CaseRec)
    (h : keysNodup store) : keysNodup (mapSet store k v) := by
  induction store with
  | nil => simp [mapSet, keysNodup]
  | cons p rest ih =>
    obtain ⟨k0, v0⟩ := p
    rw [keysNodup, List.map_cons, List.nodup_cons] at h
    by_cases h0 : k0 = k
    · subst h0
      rw [keysNodup, mapSet, if_pos rfl, List.map_cons, List.nodup_cons]
      exact ⟨h.1, h.2⟩
    · rw [keysNodup, mapSet, if_neg h0, List.map_cons, List.nodup_cons]
      constructor
      · intro hmem
        rcases List.mem_map.mp hmem with ⟨q, hq, hq1⟩
        rcases mem_mapSet rest k v q hq with h1 | h1
        · exact h0 (by rw [h1] at hq1; exact hq1.symm)
        · exact h.1 (hq1 ▸ List.mem_map_of_mem Prod.fst h1)
      · exact ih h.2

theorem normAccount_some_ne_empty (o : Option String) (a : String)
    (h : normAccount o = some a) : a ≠ "" := by
  cases o with
  | none => simp [normAccount] at h
  | some s =>
    simp only [normAccount] at h
    by_cases hs : s = ""
    · rw [if_pos hs] at h; cases h
    · rw [if_neg hs] at h; cases h; exact hs

theorem normAccount_getD_ne_empty (o : Option String) :
    (normAccount o).getD "platform" ≠ "" := by
  cases ho : normAccount o with
  | none => simp
  | some a => simpa using normAccount_some_ne_empty o a ho

/-- Records of every reachable store carry a non-empty owning account and
a truthy draft. -/
def storeOk (store : CaseStore) : Prop :=
  ∀ p ∈ store, p.2.account_id ≠ "" ∧ truthyB p.2.draft = true

theorem storeOk_nil : storeOk [] := by
  intro p hp
  simp at hp

theorem storeOk_mapSet (store : CaseStore) (k : String) (v : CaseRec)
    (hs : storeOk store) (hv : v.account_id ≠ "" ∧ truthyB v.draft = true) :
    storeOk (mapSet store k v) := by
  intro p hp
  rcases mem_mapSet store k v p hp with h1 | h1
  · rw [h1]; exact hv
  · exact hs p h1

/-- The store after one webhook POST has a key exactly when the input is a
successful creation for it or the key was already present. -/
theorem hasKey_handleWebhook (apiKey : Option String) (inp : WebhookInput)
    (store : CaseStore) (x : String) :
    hasKey (handleWebhook apiKey inp store).store x =
      (successfulCreationB apiKey inp x || hasKey store x) := by
  cases hv : inp.verif with
  | error msg => simp only [handleWebhook, successfulCreationB, hv]; rfl
  | ok ev =>
    simp only [handleWebhook, successfulCreationB, hv]
    by_cases ht : ev.type = "charge.dispute.created"
    · rw [if_pos ht, strBeqTrue ht]
      cases hr : inp.retrieveOutcome with
      | error e => simp
      | ok full =>
        dsimp only
        cases hg : generateAIDraft apiKey full inp.fetchOutcome with
        | mk res n =>
          cases res with
          | error e => simp
          | ok draft =>
            show hasKey (mapSet store ev.objId _) x = _
            rw [hasKey_mapSet]
            by_cases hx : x = ev.objId
            · rw [strBeqTrue hx, strBeqTrue hx.symm]
              rfl
            · rw [strBeqFalse hx, strBeqFalse (fun he => hx he.symm)]
              rfl
    · rw [if_neg ht, strBeqFalse ht]
      rfl

theorem storeOk_handleWebhook (apiKey : Option String) (inp : WebhookInput)
    (store : CaseStore) (hs : storeOk store) :
    storeOk (handleWebhook apiKey inp store).store := by
  cases hv : inp.verif with
  | error msg => simp only [handleWebhook, hv]; exact hs
  | ok ev =>
    simp only [handleWebhook, hv]
    by_cases ht : ev.type = "charge.dispute.created"
    · rw [if_pos ht]
      cases hr : inp.retrieveOutcome with
      | error e => exact hs
      | ok full =>
        dsimp only
        cases hg : generateAIDraft apiKey full inp.fetchOutcome with
        | mk res n =>
          cases res with
          | error e => exact hs
          | ok draft =>
            apply storeOk_mapSet store _ _ hs
            constructor
            · exact normAccount_getD_ne_empty ev.account
            · exact generateAIDraft_ok_truthy apiKey full inp.fetchOutcome draft
                (by rw [hg])
    · rw [if_neg ht]
      exact hs

theorem keysNodup_handleWebhook (apiKey : Option String) (inp : WebhookInput)
    (store : CaseStore) (hs : keysNodup store) :
    keysNodup (handleWebhook apiKey inp store).store := by
  cases hv : inp.verif with
  | error msg => simp only [handleWebhook, hv]; exact hs
  | ok ev =>
    simp only [handleWebhook, hv]
    by_cases ht : ev.type = "charge.dispute.created"
    · rw [if_pos ht]
      cases hr : inp.retrieveOutcome with
      | error e => exact hs
      | ok full =>
        dsimp only
        cases hg : generateAIDraft apiKey full inp.fetchOutcome with
        | mk res n =>
          cases res with
          | error e => exact hs
          | ok draft => exact keysNodup_mapSet store _ _ hs
    · rw [if_neg ht]
      exact hs

theorem hasKey_foldl (apiKey : Option String) (trace : List WebhookInput)
    (st : CaseStore) (x : String) :
    hasKey (trace.foldl (fun s inp => (handleWebhook apiKey inp s).store) st) x =
      (trace.any (fun inp => successfulCreationB apiKey inp x) || hasKey st x) := by
  induction trace generalizing st with
  | nil => simp
  | cons inp rest ih =>
    rw [List.foldl_cons, ih, List.any_cons, hasKey_handleWebhook]
    cases successfulCreationB apiKey inp x <;>
      cases rest.any (fun i => successfulCreationB apiKey i x) <;>
      cases hasKey st x <;> rfl

theorem storeOk_processTrace (apiKey : Option String)
    (trace : List WebhookInput) : storeOk (processTrace apiKey trace) := by
  rw [processTrace]
  have : ∀ st : CaseStore, storeOk st →
      storeOk (trace.foldl (fun s inp => (handleWebhook apiKey inp s).store) st) := by
    induction trace with
    | nil => intro st h; exact h
    | cons inp rest ih =>
      intro st h
      rw [List.foldl_cons]
      exact ih _ (storeOk_handleWebhook apiKey inp st h)
  exact this [] storeOk_nil

theorem keysNodup_processTrace (apiKey : Option String)
    (trace : List WebhookInput) : keysNodup (processTrace apiKey trace) := by
  rw [processTrace]
  have : ∀ st : CaseStore, keysNodup st →
      keysNodup (trace.foldl (fun s inp => (handleWebhook apiKey inp s).store) st) := by
    induction trace with
    | nil => intro st h; exact h
    | cons inp rest ih =>
      intro st h
      rw [List.foldl_cons]
      exact ih _ (keysNodup_handleWebhook apiKey inp st h)
  exact this [] (by simp [keysNodup])

theorem chainExtract_ok (j : JsVal) (hj1 : j ≠ .null) (hj2 : j ≠ .undefined) :
    ∃ c, chainExtract j = .ok c := by
  cases j with
  | undefined => exact absurd rfl hj2
  | null => exact absurd rfl hj1
  | bool b => exact ⟨_, rfl⟩
  | num n => exact ⟨_, rfl⟩
  | str s => exact ⟨_, rfl⟩
  | arr xs => exact ⟨_, rfl⟩
  | obj fields => exact ⟨_, rfl⟩

theorem strLength_append (a b : String) :
    (a ++ b).length = a.length + b.length := by
  cases a with
  | mk da =>
    cases b with
    | mk db =>
      show (da ++ db).length = da.length + db.length
      exact List.length_append da db

/-- Helper observation: whether a runtime value is a string. -/
def jsIsStr : JsVal → Bool
  | .str _ => true
  | _ => false

theorem draftPreview_str (s : String) :
    draftPreview (.str s) =
      .ok (jsSlice s 400 ++ (if 400 < s.length then "..." else "")) := by
  have hcond : (truthyB (.str s) && jsLengthGtB (.str s) 400) =
      decide (400 < s.length) := by
    by_cases hlen : 400 < s.length
    · have hne : s ≠ "" := by
        intro he
        rw [he] at hlen
        exact absurd hlen (by decide)
      rw [(truthyB_str_iff s).mpr hne]
      simp [jsLengthGtB]
    · simp [jsLengthGtB, hlen]
  show Except.ok (jsToString (.str (jsSlice s 400)) ++
      (if truthyB (.str s) && jsLengthGtB (.str s) 400 then "..." else "")) =
    Except.ok (jsSlice s 400 ++ (if 400 < s.length then "..." else ""))
  rw [hcond]
  simp [jsToString]

theorem draftPreview_str_length (s p : String)
    (h : draftPreview (.str s) = .ok p) : p.length ≤ 403 := by
  rw [draftPreview_str] at h
  cases h
  rw [strLength_append, jsSlice_length]
  have h3 : (if 400 < s.length then "..." else "").length ≤ 3 := by
    split <;> decide
  omega

/-- A well-formed dispute document used in concrete instances. -/
def sampleDoc : DisputeDoc :=
  ⟨.str "dp_1", .str "fraudulent", .num (.int 2500), .str "usd",
   .num (.int 0), .str "ch_1", .undefined, .str "needs_response"⟩

/-! Claim theorems. -/

/-- C1: every inbound webhook POST whose signature does not verify is
answered with client-error status 400, the Case Store is left untouched,
and no provider retrieval and no completion fetch occurs. -/
theorem C1_sig_fail_no_touch (apiKey : Option String) (inp : WebhookInput)
    (store : CaseStore) (msg : String) (h : inp.verif = .error msg) :
    (handleWebhook apiKey inp store).status = 400 ∧
    (handleWebhook apiKey inp store).store = store ∧
    (handleWebhook apiKey inp store).retrieveCalls = [] ∧
    (handleWebhook apiKey inp store).fetchCalls = 0 := by
  simp [handleWebhook, h]

/-- Witness for C1 at a concrete rejected POST. -/
theorem C1_sig_fail_no_touch_witness :
    (handleWebhook none ⟨.error "No signatures found", .error "x", .networkError⟩ []).status = 400 ∧
    (handleWebhook none ⟨.error "No signatures found", .error "x", .networkError⟩ []).store = [] ∧
    (handleWebhook none ⟨.error "No signatures found", .error "x", .networkError⟩ []).retrieveCalls = [] ∧
    (handleWebhook none ⟨.error "No signatures found", .error "x", .networkError⟩ []).fetchCalls = 0 :=
  C1_sig_fail_no_touch none ⟨.error "No signatures found", .error "x", .networkError⟩ []
    "No signatures found" rfl

/-- C2 counterexample: the signature-rejection body embeds the
verification error's message, so two rejections with different underlying
errors carry different bodies — the endpoint does not answer rejections
with one fixed generic message. -/
theorem C2_counterexample_reject_body_varies :
    (handleWebhook none ⟨.error "sigA", .error "x", .networkError⟩ []).body =
      .text "Webhook Error: sigA" ∧
    (handleWebhook none ⟨.error "sigB", .error "x", .networkError⟩ []).body =
      .text "Webhook Error: sigB" ∧
    RespBody.text "Webhook Error: sigA" ≠ RespBody.text "Webhook Error: sigB" :=
  ⟨rfl, rfl, by decide⟩

/-- C2 (amended): every handler-failure (status 500) response of the
webhook endpoint carries only the fixed generic body `Internal error`;
the signature-rejection response instead is `Webhook Error: ` followed by
the verification error's message, so it echoes the verification failure
detail. -/
theorem C2_amended_error_bodies (apiKey : Option String) (inp : WebhookInput)
    (store : CaseStore) :
    ((handleWebhook apiKey inp store).status = 500 →
      (handleWebhook apiKey inp store).body = .text "Internal error") ∧
    (∀ msg, inp.verif = .error msg →
      (handleWebhook apiKey inp store).body = .text ("Webhook Error: " ++ msg)) := by
  cases hv : inp.verif with
  | error msg0 =>
    constructor
    · intro h5
      simp only [handleWebhook, hv] at h5
      exact absurd h5 (by decide)
    · intro msg hmsg
      cases hmsg
      simp only [handleWebhook, hv]
  | ok ev =>
    constructor
    · intro h5
      simp only [handleWebhook, hv] at h5 ⊢
      by_cases ht : ev.type = "charge.dispute.created"
      · rw [if_pos ht] at h5 ⊢
        cases hr : inp.retrieveOutcome with
        | error e => rfl
        | ok full =>
          dsimp only at h5 ⊢
          cases hg : generateAIDraft apiKey full inp.fetchOutcome with
          | mk res n =>
            cases res with
            | error e => rfl
            | ok draft =>
              rw [hr] at h5
              dsimp only at h5
              rw [hg] at h5
              simp at h5
      · rw [if_neg ht] at h5
        simp at h5
    · intro msg hmsg
      exact Except.noConfusion hmsg

/-- Witness for C2 (amended) at a concrete failing retrieval and at the
concrete rejection of the counterexample. -/
theorem C2_amended_error_bodies_witness :
    ((handleWebhook none ⟨.ok ⟨"charge.dispute.created", "dp_1", none⟩, .error "boom", .networkError⟩ []).status = 500 →
      (handleWebhook none ⟨.ok ⟨"charge.dispute.created", "dp_1", none⟩, .error "boom", .networkError⟩ []).body = .text "Internal error") ∧
    (∀ msg, (WebhookInput.mk (.ok ⟨"charge.dispute.created", "dp_1", none⟩) (.error "boom") .networkError).verif = .error msg →
      (handleWebhook none ⟨.ok ⟨"charge.dispute.created", "dp_1", none⟩, .error "boom", .networkError⟩ []).body = .text ("Webhook Error: " ++ msg)) :=
  C2_amended_error_bodies none ⟨.ok ⟨"charge.dispute.created", "dp_1", none⟩, .error "boom", .networkError⟩ []

/-- C7: with no generation credential configured the draft generator
returns, for every dispute document and every fetch outcome, the fallback
string — which embeds the rendering of the case identifier and is
non-empty — without raising and without performing any network call. -/
theorem C7_no_key_fallback (d : DisputeDoc) (fo : FetchOutcome) :
    generateAIDraft none d fo = (.ok (.str (fallbackText d)), 0) ∧
    (∃ pre post, fallbackText d = pre ++ jsToString d.id ++ post) ∧
    fallbackText d ≠ "" :=
  ⟨rfl,
   ⟨"Dispute ",
    ": Provide clear proof of service/delivery, customer communication, refund policy, and terms.\n(OPENAI_API_KEY missing; returning fallback text.)",
    rfl⟩,
   fallbackText_ne_empty d⟩

/-- A successfully processed creation event for `dp_1` (no connected
account, no generation credential: the fallback draft is stored). -/
def wInputCreate : WebhookInput :=
  ⟨.ok ⟨"charge.dispute.created", "dp_1", none⟩, .ok sampleDoc, .networkError⟩

/-- A verified closure event. -/
def wInputClosed : WebhookInput :=
  ⟨.ok ⟨"charge.dispute.closed", "dp_9", none⟩, .error "unused", .networkError⟩

/-- C4: over every sequence of webhook POSTs starting from the empty
store, a Case Record for `x` exists if and only if some POST of the
sequence was a successfully processed creation event for `x`; and every
verified event of a kind other than `charge.dispute.created` is
acknowledged with success and leaves the store untouched, with no
provider call. -/
theorem C4_store_iff_creation (apiKey : Option String) :
    (∀ (trace : List WebhookInput) (x : String),
      hasKey (processTrace apiKey trace) x = true ↔
        ∃ inp ∈ trace, successfulCreationB apiKey inp x = true) ∧
    (∀ (inp : WebhookInput) (store : CaseStore) (ev : StripeEvent),
      inp.verif = .ok ev → ev.type ≠ "charge.dispute.created" →
      handleWebhook apiKey inp store = ⟨200, .receivedTrue, store, [], 0⟩) := by
  constructor
  · intro trace x
    rw [processTrace, hasKey_foldl]
    simp [hasKey, mapGet, List.lookup, List.any_eq_true]
  · intro inp store ev hv ht
    simp only [handleWebhook, hv, if_neg ht]

/-- Witness for C4: the creation input yields the key; the closure input
is acknowledged and leaves the empty store empty. -/
theorem C4_store_iff_creation_witness :
    hasKey (processTrace none [wInputCreate]) "dp_1" = true ∧
    handleWebhook none wInputClosed [] = ⟨200, .receivedTrue, [], [], 0⟩ :=
  ⟨((C4_store_iff_creation none).1 [wInputCreate] "dp_1").mpr
      ⟨wInputCreate, List.mem_singleton_self _, rfl⟩,
   (C4_store_iff_creation none).2 wInputClosed [] ⟨"charge.dispute.closed", "dp_9", none⟩
      rfl (by decide)⟩

/-- A completion response whose first choice's message content is the
JSON number `7`: truthy, so `|| "Draft unavailable."` does not replace
it. -/
def numContentResp : JsVal :=
  .obj [("choices", .arr [.obj [("message", .obj [("content", .num (.int 7))])]])]

/-- A creation input processed with such a completion response. -/
def wInputNumContent : WebhookInput :=
  ⟨.ok ⟨"charge.dispute.created", "dp_1", none⟩, .ok sampleDoc,
   .jsonResp numContentResp⟩

/-- C3 counterexample: a creation event processed successfully (status
200) against a completion response whose content is the JSON number `7`
stores that number as the draft — the stored draft is not a (non-empty)
string. -/
theorem C3_counterexample_nonstring_draft :
    (handleWebhook (some "sk-test") wInputNumContent []).status = 200 ∧
    ((mapGet (handleWebhook (some "sk-test") wInputNumContent []).store "dp_1").map
      (fun r => r.draft)) = some (.num (.int 7)) ∧
    ((mapGet (handleWebhook (some "sk-test") wInputNumContent []).store "dp_1").map
      (fun r => jsIsStr r.draft)) = some false :=
  ⟨rfl, rfl, rfl⟩

/-- C3 (amended): after every successful processing (status 200) of a
verified creation event over a store with pairwise-distinct keys, exactly
one Case Record is keyed by the event's case identifier; its draft is
truthy — never the empty string, and non-empty whenever it is a string,
though a malformed completion response can make it a non-string value
(see the counterexample) — and its owning account is the event's account
identifier when the event carries a truthy one and the sentinel
`platform` otherwise. -/
theorem C3_amended_created_record (apiKey : Option String)
    (inp : WebhookInput) (store : CaseStore) (ev : StripeEvent)
    (hv : inp.verif = .ok ev) (ht : ev.type = "charge.dispute.created")
    (hnd : keysNodup store)
    (h200 : (handleWebhook apiKey inp store).status = 200) :
    ∃ rec, mapGet (handleWebhook apiKey inp store).store ev.objId = some rec ∧
      countKey (handleWebhook apiKey inp store).store ev.objId = 1 ∧
      truthyB rec.draft = true ∧
      (∀ s, rec.draft = .str s → s ≠ "") ∧
      rec.account_id = (normAccount ev.account).getD "platform" := by
  simp only [handleWebhook, hv, if_pos ht] at h200 ⊢
  cases hr : inp.retrieveOutcome with
  | error e =>
    rw [hr] at h200
    simp at h200
  | ok full =>
    rw [hr] at h200
    dsimp only at h200 ⊢
    cases hg : generateAIDraft apiKey full inp.fetchOutcome with
    | mk res n =>
      cases res with
      | error e =>
        rw [hg] at h200
        simp at h200
      | ok draft =>
        rw [hg] at h200
        refine ⟨⟨full, draft, (normAccount ev.account).getD "platform"⟩, ?_, ?_, ?_, ?_, rfl⟩
        · rw [mapGet_mapSet, if_pos rfl]
        · exact countKey_mapSet_self store ev.objId _ hnd
        · exact generateAIDraft_ok_truthy apiKey full inp.fetchOutcome draft
            (by rw [hg])
        · intro s hs
          have htr := generateAIDraft_ok_truthy apiKey full inp.fetchOutcome draft
            (by rw [hg])
          have hs2 : draft = JsVal.str s := hs
          rw [hs2] at htr
          exact (truthyB_str_iff s).mp htr

/-- A creation event carrying a connected account. -/
def wInputCreateAcct : WebhookInput :=
  ⟨.ok ⟨"charge.dispute.created", "dp_2", some "acct_1"⟩, .ok sampleDoc,
   .networkError⟩

/-- Witness for C3 (amended) at a concrete creation event with a
connected account, processed with the fallback generator. -/
theorem C3_amended_created_record_witness :
    ∃ rec, mapGet (handleWebhook none wInputCreateAcct []).store "dp_2" = some rec ∧
      countKey (handleWebhook none wInputCreateAcct []).store "dp_2" = 1 ∧
      truthyB rec.draft = true ∧
      (∀ s, rec.draft = .str s → s ≠ "") ∧
      rec.account_id = (normAccount (some "acct_1")).getD "platform" :=
  C3_amended_created_record none wInputCreateAcct []
    ⟨"charge.dispute.created", "dp_2", some "acct_1"⟩ rfl rfl
    (by simp [keysNodup]) rfl

/-- C5 counterexample: with a credential configured and a well-formed
document, a rejected completion fetch makes the generator raise (the
error propagates out of `generateAIDraft`) instead of returning a
string. -/
theorem C5_counterexample_network_throw :
    generateAIDraft (some "sk-test") sampleDoc .networkError =
      (.error .fetchFailed, 1) := rfl

/-- C5 (amended): when the user message builds and the completion call
yields a JSON response that is not `null`, the generator returns a value
without raising, and that value is the fixed string `Draft unavailable.`
whenever the extracted first-choice content is missing or falsy (a truthy
content is returned as extracted, not necessarily a string); when the
completion call itself is rejected, the generator raises and the error
propagates to its caller (the webhook handler's catch-all). -/
theorem C5_amended_generator (k : String) (d : DisputeDoc) (j : JsVal)
    (hm : ∃ msg, userContent d = .ok msg)
    (hj1 : j ≠ .null) (hj2 : j ≠ .undefined) :
    (∃ c, chainExtract j = .ok c ∧
      generateAIDraft (some k) d (.jsonResp j) =
        (.ok (if truthyB c then c else .str "Draft unavailable."), 1)) ∧
    generateAIDraft (some k) d .networkError = (.error .fetchFailed, 1) := by
  obtain ⟨msg, hmsg⟩ := hm
  obtain ⟨c, hc⟩ := chainExtract_ok j hj1 hj2
  refine ⟨⟨c, hc, ?_⟩, ?_⟩
  · simp only [generateAIDraft, hmsg, hc]
  · simp only [generateAIDraft, hmsg]

/-- Witness for C5 (amended) at the sample document and an empty-object
response (extraction yields `undefined`, hence the fixed string). -/
theorem C5_amended_generator_witness :
    (∃ c, chainExtract (.obj []) = .ok c ∧
      generateAIDraft (some "sk-test") sampleDoc (.jsonResp (.obj [])) =
        (.ok (if truthyB c then c else .str "Draft unavailable."), 1)) ∧
    generateAIDraft (some "sk-test") sampleDoc .networkError =
      (.error .fetchFailed, 1) :=
  C5_amended_generator "sk-test" sampleDoc (.obj []) ⟨_, rfl⟩
    (fun h => JsVal.noConfusion h) (fun h => JsVal.noConfusion h)

/-- The sample document with the creation timestamp absent. -/
def noCreatedDoc : DisputeDoc :=
  ⟨.str "dp_1", .str "fraudulent", .num (.int 2500), .str "usd",
   .undefined, .str "ch_1", .undefined, .str "needs_response"⟩

/-- C6 counterexample: a case document with an absent creation time makes
the generator (with a credential configured) raise `RangeError` — from
`new Date(NaN).toISOString()` — before any fetch, instead of succeeding
with a safe default. -/
theorem C6_counterexample_created_absent :
    generateAIDraft (some "sk-test") noCreatedDoc (.jsonResp (.obj [])) =
      (.error .rangeError, 0) := rfl

/-- C6 (amended): a document whose reason, amount, currency, transaction
reference and evidence-due time are all absent is tolerated through safe
defaults — the amount renders as `NaN`, the absent fields as `undefined`,
and the evidence-due line as the literal `unknown` — and the generator
still succeeds; but the creation time is not tolerated: it must be a
valid timestamp, and its absence makes the generator raise (see the
counterexample). -/
theorem C6_amended_safe_defaults (k : String) (idv status : JsVal) (n : Int)
    (hn : n.natAbs * 1000 ≤ 8640000000000000)
    (j : JsVal) (hj1 : j ≠ .null) (hj2 : j ≠ .undefined) :
    ∃ lines,
      userLines ⟨idv, .undefined, .undefined, .undefined, .num (.int n),
        .undefined, .undefined, status⟩ = .ok lines ∧
      lines.get? 5 = some "Evidence due by: unknown" ∧
      ∃ v, generateAIDraft (some k) ⟨idv, .undefined, .undefined, .undefined,
        .num (.int n), .undefined, .undefined, status⟩ (.jsonResp j) =
        (.ok v, 1) := by
  have hiso : jsDateToIso (jsMul1000 (jsToNumber (.num (.int n)))) =
      .ok (isoOfMillis (n * 1000)) := by
    simp only [jsToNumber, jsMul1000, jsDateToIso]
    rw [if_neg]
    rw [Int.natAbs_mul]
    have h1000 : (1000 : Int).natAbs = 1000 := rfl
    rw [h1000]
    omega
  have hul : userLines ⟨idv, .undefined, .undefined, .undefined,
      .num (.int n), .undefined, .undefined, status⟩ =
      .ok ["Dispute ID: " ++ jsToString idv,
           "Reason: undefined",
           "Amount: NaN undefined",
           "Created: " ++ isoOfMillis (n * 1000),
           "Charge: undefined",
           "Evidence due by: unknown",
           "",
           "Evidence available:",
           "- Order details: <attach order receipt / invoice>",
           "- Delivery/usage logs: <attach carrier delivery / tracking, access logs>",
           "- Customer comms: <attach email/chat transcripts>",
           "- Policies: <attach refund/terms/exclusions>",
           "",
           "Goal: Write a structured response addressing the cardholder's claim, referencing policy and proof, and requesting dispute reversal."] := by
    simp only [userLines, hiso]
    rfl
  have huc : userContent ⟨idv, .undefined, .undefined, .undefined,
      .num (.int n), .undefined, .undefined, status⟩ =
      .ok (String.intercalate "\n"
        ["Dispute ID: " ++ jsToString idv,
         "Reason: undefined",
         "Amount: NaN undefined",
         "Created: " ++ isoOfMillis (n * 1000),
         "Charge: undefined",
         "Evidence due by: unknown",
         "",
         "Evidence available:",
         "- Order details: <attach order receipt / invoice>",
         "- Delivery/usage logs: <attach carrier delivery / tracking, access logs>",
         "- Customer comms: <attach email/chat transcripts>",
         "- Policies: <attach refund/terms/exclusions>",
         "",
         "Goal: Write a structured response addressing the cardholder's claim, referencing policy and proof, and requesting dispute reversal."]) := by
    rw [userContent, hul]
    rfl
  obtain ⟨c, hc⟩ := chainExtract_ok j hj1 hj2
  have hgen : generateAIDraft (some k) ⟨idv, .undefined, .undefined,
      .undefined, .num (.int n), .undefined, .undefined, status⟩
      (.jsonResp j) =
      (.ok (if truthyB c then c else .str "Draft unavailable."), 1) := by
    simp only [generateAIDraft, huc, hc]
  exact ⟨_, hul, rfl, _, hgen⟩

/-- Witness for C6 (amended) at a concrete all-absent document with a
valid creation time. -/
theorem C6_amended_safe_defaults_witness :
    ∃ lines,
      userLines ⟨.str "dp_1", .undefined, .undefined, .undefined,
        .num (.int 0), .undefined, .undefined, .undefined⟩ = .ok lines ∧
      lines.get? 5 = some "Evidence due by: unknown" ∧
      ∃ v, generateAIDraft (some "sk-test") ⟨.str "dp_1", .undefined,
        .undefined, .undefined, .num (.int 0), .undefined, .undefined,
        .undefined⟩ (.jsonResp (.obj [])) = (.ok v, 1) :=
  C6_amended_safe_defaults "sk-test" (.str "dp_1") .undefined 0 (by decide)
    (.obj []) (fun h => JsVal.noConfusion h) (fun h => JsVal.noConfusion h)

/-- C8: the creation-path retrieval is scoped to the event's account
exactly when the event supplies a truthy (non-empty) one — otherwise it
is a platform-level call — and every update call the submission endpoint
makes for a stored case (the evidence payload builds for string as well
as array drafts) is scoped to the stored owning account exactly when
that account is not the `platform` sentinel. -/
theorem C8_provider_scoping (apiKey : Option String) :
    (∀ (inp : WebhookInput) (store : CaseStore) (ev : StripeEvent),
      inp.verif = .ok ev → ev.type = "charge.dispute.created" →
      ∃ scope, (handleWebhook apiKey inp store).retrieveCalls = [(ev.objId, scope)] ∧
        (∀ a, scope = some a ↔ (ev.account = some a ∧ a ≠ ""))) ∧
    (∀ (trace : List WebhookInput) (id : String) (rec : CaseRec)
        (upd : Except String JsVal),
      mapGet (processTrace apiKey trace) id = some rec →
      (∀ c ∈ (handleSubmit (processTrace apiKey trace) id upd).updateCalls,
        c.2.2 = updateScope rec.account_id) ∧
      (∀ payload, evidenceText rec.draft = .ok payload →
        (handleSubmit (processTrace apiKey trace) id upd).updateCalls =
          [(id, payload, updateScope rec.account_id)]) ∧
      (updateScope rec.account_id = some rec.account_id ↔
        rec.account_id ≠ "platform")) := by
  constructor
  · intro inp store ev hv ht
    refine ⟨normAccount ev.account, ?_, ?_⟩
    · simp only [handleWebhook, hv, if_pos ht]
      cases hr : inp.retrieveOutcome with
      | error e => rfl
      | ok full =>
        dsimp only
        cases hg : generateAIDraft apiKey full inp.fetchOutcome with
        | mk res n =>
          cases res with
          | error e => rfl
          | ok draft => rfl
    · intro a
      cases hacc : ev.account with
      | none => simp [normAccount]
      | some s =>
        simp only [normAccount]
        by_cases hs : s = ""
        · subst hs
          rw [if_pos rfl]
          constructor
          · intro he
            exact Option.noConfusion he
          · intro ⟨he, hne⟩
            cases he
            exact absurd rfl hne
        · rw [if_neg hs]
          constructor
          · intro he
            cases he
            exact ⟨rfl, hs⟩
          · intro ⟨he, _⟩
            exact he
  · intro trace id rec upd hget
    have hok := storeOk_processTrace apiKey trace _ (mem_of_mapGet _ _ _ hget)
    have hiff : updateScope rec.account_id = some rec.account_id ↔
        rec.account_id ≠ "platform" := by
      rw [updateScope]
      by_cases hp : rec.account_id = "platform"
      · rw [if_neg (fun hand => hand.2 hp)]
        simp [hp]
      · rw [if_pos ⟨hok.1, hp⟩]
        simp [hp]
    refine ⟨?_, ?_, hiff⟩
    · intro c hc
      simp only [handleSubmit, hget] at hc
      cases hev : evidenceText rec.draft with
      | error e =>
        rw [hev] at hc
        simp at hc
      | ok payload =>
        rw [hev] at hc
        cases upd with
        | error e =>
          dsimp only at hc
          rw [List.mem_singleton.mp hc]
        | ok v =>
          dsimp only at hc
          rw [List.mem_singleton.mp hc]
    · intro payload hev
      simp only [handleSubmit, hget, hev]
      cases upd with
      | error e => rfl
      | ok v => rfl

/-- Witness for C8: a creation event carrying account `acct_1` yields a
retrieval scoped to `acct_1`; submitting the stored case `dp_2` (whose
owning account is `acct_1`) makes exactly one update call, scoped to
`acct_1`. -/
theorem C8_provider_scoping_witness :
    (∃ scope, (handleWebhook none wInputCreateAcct []).retrieveCalls =
        [("dp_2", scope)] ∧
      (∀ a, scope = some a ↔ (some "acct_1" = some a ∧ a ≠ ""))) ∧
    ((∀ c ∈ (handleSubmit (processTrace none [wInputCreateAcct]) "dp_2"
          (.ok (.obj []))).updateCalls,
        c.2.2 = updateScope "acct_1") ∧
      (∀ payload, evidenceText (JsVal.str (fallbackText sampleDoc)) = .ok payload →
        (handleSubmit (processTrace none [wInputCreateAcct]) "dp_2"
            (.ok (.obj []))).updateCalls =
          [("dp_2", payload, updateScope "acct_1")]) ∧
      (updateScope "acct_1" = some "acct_1" ↔ "acct_1" ≠ "platform")) :=
  ⟨(C8_provider_scoping none).1 wInputCreateAcct []
      ⟨"charge.dispute.created", "dp_2", some "acct_1"⟩ rfl rfl,
   (C8_provider_scoping none).2 [wInputCreateAcct] "dp_2"
      ⟨sampleDoc, .str (fallbackText sampleDoc), "acct_1"⟩ (.ok (.obj [])) rfl⟩

/-- C9: submission truncates the stored draft with `slice(0, 8000)`: a
stored string draft longer than 8000 characters reaches the provider
update call cut to its first 8000 characters, and one of at most 8000
characters reaches it exactly as stored (stored drafts are never empty,
so the placeholder fallback is not taken). -/
theorem C9_submit_truncation (apiKey : Option String)
    (trace : List WebhookInput) (id : String) (rec : CaseRec)
    (upd : Except String JsVal) (s : String)
    (hget : mapGet (processTrace apiKey trace) id = some rec)
    (hdraft : rec.draft = .str s) :
    (8000 < s.length →
      (handleSubmit (processTrace apiKey trace) id upd).updateCalls =
        [(id, .str (jsSlice s 8000), updateScope rec.account_id)]) ∧
    (s.length ≤ 8000 →
      (handleSubmit (processTrace apiKey trace) id upd).updateCalls =
        [(id, .str s, updateScope rec.account_id)]) := by
  have hok := storeOk_processTrace apiKey trace _ (mem_of_mapGet _ _ _ hget)
  have hs : s ≠ "" := by
    have htr := hok.2
    rw [show ((id, rec) : String × CaseRec).2.draft = rec.draft from rfl,
      hdraft] at htr
    exact (truthyB_str_iff s).mp htr
  have hsl : jsSlice s 8000 ≠ "" := jsSlice_ne_empty s 8000 hs (by decide)
  have hev : evidenceText rec.draft = .ok (.str (jsSlice s 8000)) := by
    rw [hdraft]
    show Except.ok (if truthyB (.str (jsSlice s 8000))
        then JsVal.str (jsSlice s 8000)
        else JsVal.str "See attached evidence.") = _
    rw [if_pos ((truthyB_str_iff (jsSlice s 8000)).mpr hsl)]
  constructor
  · intro hlong
    simp only [handleSubmit, hget, hev]
    cases upd with
    | error e => rfl
    | ok v => rfl
  · intro hshort
    have heq : jsSlice s 8000 = s := jsSlice_of_le s 8000 hshort
    rw [heq] at hev
    simp only [handleSubmit, hget, hev]
    cases upd with
    | error e => rfl
    | ok v => rfl

/-- A completion response whose content is the string `Hello world`. -/
def helloResp : JsVal :=
  .obj [("choices", .arr [.obj [("message", .obj [("content", .str "Hello world")])]])]

/-- A creation event stored with draft `Hello world`. -/
def wInputHello : WebhookInput :=
  ⟨.ok ⟨"charge.dispute.created", "dp_1", none⟩, .ok sampleDoc,
   .jsonResp helloResp⟩

/-- Witness for C9: the stored draft `Hello world` is far below the
limit, and the provider update call receives it exactly. -/
theorem C9_submit_truncation_witness :
    ("Hello world").length ≤ 8000 ∧
    (handleSubmit (processTrace (some "sk-test") [wInputHello]) "dp_1"
        (.ok (.obj []))).updateCalls =
      [("dp_1", JsVal.str "Hello world", none)] :=
  ⟨by decide,
   (C9_submit_truncation (some "sk-test") [wInputHello] "dp_1"
      ⟨sampleDoc, .str "Hello world", "platform"⟩ (.ok (.obj []))
      "Hello world" rfl rfl).2 (by decide)⟩

theorem exceptBind_ok {α β ε : Type} (a : α) (f : α → Except ε β) :
    (Except.ok a >>= f) = f a := rfl

/-- A 500-character string. -/
def longStr : String := ⟨List.replicate 500 'a'⟩

/-- A completion response whose first choice's content is an array
holding one 500-character string: truthy, so it is stored as the
draft. -/
def arrContentResp : JsVal :=
  .obj [("choices", .arr [.obj [("message", .obj [("content", .arr [.str longStr])])]])]

/-- A creation event processed with that response. -/
def wInputArrContent : WebhookInput :=
  ⟨.ok ⟨"charge.dispute.created", "dp_1", none⟩, .ok sampleDoc,
   .jsonResp arrContentResp⟩

set_option maxRecDepth 4000 in
/-- C10 counterexample: a stored array draft (reachable: the creation
event is acknowledged with 200) is sliced as an array and stringified by
the preview concatenation, so the listing succeeds with a 500-character
preview — longer than the claimed 403-character bound. -/
theorem C10_counterexample_array_preview :
    (handleWebhook (some "sk-test") wInputArrContent []).status = 200 ∧
    ((listDisputes (handleWebhook (some "sk-test") wInputArrContent []).store).map
      (fun out => out.map (fun item => item.draft.length))) = .ok [500] ∧
    ¬(500 ≤ 403) :=
  ⟨rfl, rfl, by decide⟩

/-- C10 (amended): for every store all of whose drafts are strings, every
row of a successful listing has a draft preview of at most 403
characters; and for a string draft the preview is exactly the draft
sliced to 400 characters with `...` appended if and only if the stored
draft exceeds 400 characters.  A stored array draft instead slices as an
array and stringifies through the concatenation, so its preview can
exceed the bound (see the counterexample). -/
theorem C10_amended_string_preview_bound (store : CaseStore) :
    (∀ out, listDisputes store = .ok out →
      (∀ p ∈ store, ∃ s, p.2.draft = JsVal.str s) →
      ∀ item ∈ out, item.draft.length ≤ 403) ∧
    (∀ s, draftPreview (.str s) =
      .ok (jsSlice s 400 ++ (if 400 < s.length then "..." else ""))) := by
  constructor
  · induction store with
    | nil =>
      intro out hout hstr item hitem
      cases hout
      cases hitem
    | cons p rest ih =>
      intro out hout hstr item hitem
      obtain ⟨id, rec⟩ := p
      obtain ⟨s, hsd⟩ := hstr (id, rec) (List.mem_cons_self _ _)
      simp only [listDisputes] at hout
      cases hp : draftPreview rec.draft with
      | error e =>
        rw [hp] at hout
        exact Except.noConfusion hout
      | ok pv =>
        rw [hp] at hout
        simp only [exceptBind_ok] at hout
        cases hrest : listDisputes rest with
        | error e =>
          rw [hrest] at hout
          exact Except.noConfusion hout
        | ok out2 =>
          rw [hrest] at hout
          simp only [exceptBind_ok] at hout
          cases hout
          rcases List.mem_cons.mp hitem with h1 | h1
          · rw [h1]
            rw [show ((id, rec) : String × CaseRec).2.draft = rec.draft from rfl]
              at hsd
            rw [hsd] at hp
            exact draftPreview_str_length s pv hp
          · exact ih out2 hrest
              (fun q hq => hstr q (List.mem_cons_of_mem _ hq)) item h1
  · exact draftPreview_str

/-- The store and listing used by the C10 witness. -/
def storeC10 : CaseStore := [("dp_1", ⟨sampleDoc, .str "Hello world", "platform"⟩)]

/-- The single summary row of that listing. -/
def itemC10 : SummaryItem :=
  ⟨"dp_1", "platform", .str "needs_response", .num (.int 2500), .str "usd",
   .str "fraudulent", .num (.int 0), "Hello world"⟩

/-- Witness for C10 (amended) at a concrete one-record store whose
single draft is the string `Hello world`. -/
theorem C10_amended_string_preview_bound_witness :
    itemC10.draft.length ≤ 403 ∧
    draftPreview (.str "Hello world") = .ok "Hello world" := by
  constructor
  · apply (C10_amended_string_preview_bound storeC10).1 [itemC10] rfl
      ?_ itemC10 (List.mem_singleton_self _)
    intro p hp
    rw [List.mem_singleton.mp hp]
    exact ⟨"Hello world", rfl⟩
  · exact (C10_amended_string_preview_bound storeC10).2 "Hello world"
